import Mathlib

/-!
Verification of the RLM REPL core (`rlm/repl.py`, `rlm/utils/utils.py`,
`rlm/rlm_repl.py`) against its natural-language specification.

The Python sources are shallowly embedded:

* pure text processing (code-block extraction, final-answer directives,
  the line classifier, the import/body split) is translated function by
  function, with Python string/regex semantics reproduced on `List Char`;
* the dynamic parts (`exec`/`eval` of submitted code) are abstracted by an
  `Interp` record whose fields stand for the outcome of running one chunk
  of Python against a namespace — `code_execution`'s control flow around
  those calls (notebook-style expression tail, bare-except fallback,
  write-back of locals, `_stdout`/`_stderr` injection, the outer
  `except Exception` boundary) is translated from the source;
* the process-wide stream/cwd redirection of `_capture_output` and
  `_temp_working_directory` is modelled as scoped state transformers on a
  small `Host` record.

Namespaces are modelled as `String → Option Value`; a Python dict's
in-place mutation across `exec` is modelled by threading the namespace
value through the abstract interpreter.
-/

set_option autoImplicit false

/-! ## Python string helpers (character-level, ASCII) -/

/-- Python whitespace for `str.strip()` and the regex class `\s`
(ASCII: space, tab, newline, carriage return, vertical tab, form feed). -/
def pySpaceChar (c : Char) : Bool :=
  c = ' ' || c = '\t' || c = '\n' || c = '\r' || c = '\x0b' || c = '\x0c'

/-- `str.strip()` on a character list: drop whitespace from both ends. -/
def pyStripList (l : List Char) : List Char :=
  ((l.dropWhile pySpaceChar).reverse.dropWhile pySpaceChar).reverse

/-- `str.strip(chars)` on a character list: drop the given characters from both ends. -/
def pyStripSet (cs : List Char) (l : List Char) : List Char :=
  ((l.dropWhile (fun c => cs.contains c)).reverse.dropWhile (fun c => cs.contains c)).reverse

/-- Python `s.startswith(p)`. -/
def pyStartsWith (s p : String) : Bool :=
  p.data.isPrefixOf s.data

/-- Python `s.endswith(p)`. -/
def pyEndsWith (s p : String) : Bool :=
  p.data.reverse.isPrefixOf s.data.reverse

/-- Python `s.split(sep)` for a single-character separator, on character
lists.  Always returns at least one (possibly empty) piece. -/
def pySplitOn (l : List Char) (sep : Char) : List (List Char) :=
  match l with
  | [] => [[]]
  | c :: cs =>
    if c = sep then [] :: pySplitOn cs sep
    else
      match pySplitOn cs sep with
      | [] => [[c]]
      | h :: t => (c :: h) :: t

theorem pySplitOn_ne_nil (l : List Char) (sep : Char) : pySplitOn l sep ≠ [] := by
  cases l with
  | nil => simp [pySplitOn]
  | cons c cs =>
    simp only [pySplitOn]
    split
    · simp
    · cases h : pySplitOn cs sep <;> simp

/-- The first piece of a single-character split is the prefix before the
first occurrence of the separator. -/
theorem pySplitOn_head (l : List Char) (sep : Char) :
    (pySplitOn l sep).headD [] = l.takeWhile (fun c => c != sep) := by
  induction l with
  | nil => simp [pySplitOn]
  | cons c cs ih =>
    simp only [pySplitOn, List.takeWhile]
    by_cases h : c = sep
    · simp [h]
    · simp only [if_neg h]
      cases hsp : pySplitOn cs sep with
      | nil => exact absurd hsp (pySplitOn_ne_nil cs sep)
      | cons h' t' =>
        rw [hsp] at ih
        simp only [List.headD_cons] at ih
        have hb : (!(c == sep)) = true := by simp [h]
        simp [bne, ih, hb]

/-- Python `sep.join(xs)` for lists of strings. -/
def pyJoin (sep : String) (xs : List String) : String :=
  String.mk (List.intercalate sep.data (xs.map String.data))

/-- Python `code.split('\n')` as a list of strings. -/
def pyLines (s : String) : List String :=
  (pySplitOn s.data '\n').map String.mk

/-! ## Values and namespaces -/

/-- Abstract Python runtime values, as far as the claims need them:
the `None` sentinel, strings (captured output, context text), integers,
and opaque objects (functions, modules, ...) distinguished by a tag. -/
inductive Value where
  | vnone : Value
  | vstr : String → Value
  | vint : Int → Value
  | vobj : Nat → Value
deriving DecidableEq

/-- Python `str(value)`, as far as the model distinguishes values. -/
def pyStr : Value → String
  | .vnone => "None"
  | .vstr s => s
  | .vint n => toString n
  | .vobj n => "<object " ++ toString n ++ ">"

/-- A namespace (Python dict from identifier to value). -/
def NS : Type := String → Option Value

/-- `ns[k] = v` (dict item assignment). -/
def nsSet (ns : NS) (k : String) (v : Value) : NS :=
  fun k' => if k' = k then some v else ns k'

/-- The empty namespace. -/
def emptyNS : NS := fun _ => none

/-- `{**g, **l}`: overlay of locals on globals, locals winning on collision
(`repl.py` line 293). -/
def overlay (g l : NS) : NS :=
  fun k => match l k with
    | some v => some v
    | none => g k

/-! ## Text protocol parser: `find_code_blocks` (`utils.py` lines 9-21)

The Python function runs `re.finditer` with the DOTALL pattern
 ` ```repl\s*\n(.*?)\n``` ` and returns the stripped group of every
non-overlapping match.  The scanner below reproduces those regex
semantics: at each candidate position the literal fence is matched, the
greedy `\s*\n` backtracks from the last newline of the maximal whitespace
run towards earlier newlines, and `(.*?)\n` ++ fence takes the lazily
shortest body. -/

/-- Lazy match of `(.*?)\n` ++ closing fence: splits off the shortest
prefix that is followed by a newline and three backquotes, returning the
prefix and the text after the fence. -/
def findClose : List Char → Option (List Char × List Char)
  | [] => none
  | c :: cs =>
    if ("\n```".data).isPrefixOf (c :: cs) then some ([], (c :: cs).drop 4)
    else (findClose cs).map (fun p => (c :: p.1, p.2))

/-- All suffixes that start immediately after a newline, in order of the
newline's position. -/
def afterNewlines : List Char → List (List Char)
  | [] => []
  | c :: cs => (if c = '\n' then [cs] else []) ++ afterNewlines cs

/-- Try to match the fenced-block pattern at the current position:
the literal opening fence, then `\s*\n` (greedy, backtracking from the
last newline of the whitespace run), then the lazy body up to the closing
fence.  Returns the body and the rest of the text after the match. -/
def matchReplAt (l : List Char) : Option (List Char × List Char) :=
  if ("```repl".data).isPrefixOf l then
    ((afterNewlines ((l.drop 7).takeWhile pySpaceChar)).reverse).findSome?
      (fun suf => findClose (suf ++ (l.drop 7).dropWhile pySpaceChar))
  else none

/-- `re.finditer` scan: try each position left to right, resuming after
the end of every match.  The fuel argument bounds the scan by the text
length (each step consumes at least one character). -/
def scanBlocksAux : Nat → List Char → List (List Char)
  | 0, _ => []
  | _ + 1, [] => []
  | fuel + 1, c :: cs =>
    match matchReplAt (c :: cs) with
    | some (g, rest) => pyStripList g :: scanBlocksAux fuel rest
    | none => scanBlocksAux fuel cs

/-- The list of stripped fenced-block bodies found in the text. -/
def findCodeBlocksList (text : String) : List String :=
  (scanBlocksAux (text.data.length + 1) text.data).map String.mk

/-- `find_code_blocks` (`utils.py` lines 9-21).  The result lives in
`Option (List String)` because the call sites test `is not None`: the
docstring promises `None` when no blocks are found, but every path of the
source returns the accumulated list `results`, so this function is
`some _` on every input. -/
def find_code_blocks (text : String) : Option (List String) :=
  some (findCodeBlocksList text)

/-! ## Text protocol parser: `find_final_answer` (`utils.py` lines 23-40)

`re.search` with MULTILINE over `^\s*FINAL_VAR\((.*?)\)` first, then
`^\s*FINAL\((.*?)\)`.  With a literal following the whitespace run, the
greedy `\s*` admits exactly one split at each anchored position, so the
search is: at each line start, skip whitespace, match the literal, and
take the lazy group up to the first closing parenthesis. -/

/-- Lazy `(.*?)\)`: the shortest prefix before a closing parenthesis. -/
def upToParen : List Char → Option (List Char)
  | [] => none
  | c :: cs => if c = ')' then some [] else (upToParen cs).map (c :: ·)

/-- Try the directive pattern at one anchored position: `\s*`, the given
literal (directive name plus opening parenthesis), then the lazy group. -/
def tryAnchor (lit : List Char) (l : List Char) : Option (List Char) :=
  if lit.isPrefixOf (l.dropWhile pySpaceChar) then
    upToParen ((l.dropWhile pySpaceChar).drop lit.length)
  else none

/-- `re.search` with the MULTILINE anchor `^`: positions at the start of
the text or immediately after a newline are anchored; the first match in
text order wins. -/
def lineSearchAux (lit : List Char) : Bool → List Char → Option (List Char)
  | anchored, [] => if anchored then tryAnchor lit [] else none
  | anchored, c :: cs =>
    match (if anchored then tryAnchor lit (c :: cs) else none) with
    | some g => some g
    | none => lineSearchAux lit (c = '\n') cs

/-- `find_final_answer` (`utils.py` lines 23-40): the named-variable
pattern is searched first over the whole text; the literal pattern is
examined only when that search fails. -/
def find_final_answer (text : String) : Option (String × String) :=
  match lineSearchAux "FINAL_VAR(".data true text.data with
  | some g => some ("FINAL_VAR", String.mk (pyStripList g))
  | none =>
    match lineSearchAux "FINAL(".data true text.data with
    | some g => some ("FINAL", String.mk (pyStripList g))
    | none => none

/-! ## Orchestrator transcript handling (`utils.py`, `rlm_repl.py`) -/

/-- A transcript message: role and content. -/
structure Message where
  role : String
  content : String
deriving DecidableEq

/-- `add_execution_result_to_messages` (`utils.py` lines 43-71): truncate
the result to 100000 characters and append one user-role message. -/
def add_execution_result_to_messages (messages : List Message) (code result : String) :
    List Message :=
  messages ++ [⟨"user",
    "Code executed:\n```python\n" ++ code ++ "\n```\n\nREPL output:\n"
      ++ (if result.length > 100000 then String.mk (result.data.take 100000) ++ "..." else result)⟩]

/-- `process_code_execution` (`utils.py` lines 148-182): re-extract the
code blocks and append one execution message per block; `execResult`
stands for `execute_code` (running one block in the session and
formatting the outcome). -/
def process_code_execution (response : String) (messages : List Message)
    (execResult : String → String) : List Message :=
  match find_code_blocks response with
  | some code_blocks =>
    code_blocks.foldl
      (fun msgs code => add_execution_result_to_messages msgs code (execResult code))
      messages
  | none => messages

/-- The per-iteration transcript step of `RLM_REPL.completion`
(`rlm_repl.py` lines 88-101): extract code blocks; when the extraction is
not `None`, process code execution, otherwise append the raw reply as an
assistant message. -/
def completion_step (response : String) (messages : List Message)
    (execResult : String → String) : List Message :=
  match find_code_blocks response with
  | some _ => process_code_execution response messages execResult
  | none => messages ++ [⟨"assistant", "You responded with:\n" ++ response⟩]

/-- The nested strip chain applied to a named-variable directive's
argument (`utils.py` line 198, `repl.py` line 184):
`.strip().strip(quote).strip(apostrophe).strip(newline).strip(cr)`. -/
def stripChain (s : String) : String :=
  String.mk (pyStripSet ['\r'] (pyStripSet ['\n'] (pyStripSet ['\x27']
    (pyStripSet ['"'] (pyStripList s.data)))))

/-- `check_for_final_answer` (`utils.py` lines 184-214), with the logger
side effects dropped: a literal directive returns its content, a
named-variable directive resolves the stripped name against the session's
local namespace and reports `none` when the name is absent. -/
def check_for_final_answer (response : String) (locals : NS) : Option String :=
  match find_final_answer response with
  | none => none
  | some (answer_type, content) =>
    if answer_type = "FINAL" then some content
    else if answer_type = "FINAL_VAR" then
      match locals (stripChain content) with
      | some v => some (pyStr v)
      | none => none
    else none

/-! ## Snippet classifier (`repl.py` lines 296-307) -/

/-- The statement/keyword prefixes of the classifier's `startswith` tuple
(`repl.py` line 303). -/
def kwPrefixes : List String :=
  ["import ", "from ", "def ", "class ", "if ", "for ", "while ", "try:",
   "with ", "return ", "yield ", "break", "continue", "pass"]

/-- The classifier `is_expression` (`repl.py` lines 302-307): the last
line is an expression candidate unless it starts with a keyword prefix,
the part before the first hash character contains an equals sign
(`'=' not in last_line.split('#')[0]`), it ends with a colon, or it
starts with `print(`. -/
def is_expression (last_line : String) : Bool :=
  !(kwPrefixes.any (fun p => pyStartsWith last_line p)) &&
  !(((pySplitOn last_line.data '#').headD []).contains '=') &&
  !(pyEndsWith last_line ":") &&
  !(pyStartsWith last_line "print(")

/-- Modelled from the spec: "contains a top-level assignment operator
outside of a trailing comment".  An equals sign at bracket depth zero,
before any comment marker, that is not the second character of `==`,
`!=`, `<=` or `>=`, counts as an assignment operator (this also covers
augmented assignments such as `+=`, whose equals sign follows a
non-comparison character).  String literals are not modelled; the spec
does not define them for this phrase. -/
def specAssignAux : List Char → Nat → Option Char → Bool
  | [], _, _ => false
  | c :: cs, depth, prev =>
    if depth = 0 && c = '#' then false
    else if c = '(' || c = '[' || c.toNat = 123 then specAssignAux cs (depth + 1) (some c)
    else if c = ')' || c = ']' || c.toNat = 125 then specAssignAux cs (depth - 1) (some c)
    else if depth = 0 && c = '=' then
      if (match cs with | '=' :: _ => true | _ => false)
          || prev == some '=' || prev == some '!' || prev == some '<' || prev == some '>' then
        specAssignAux cs depth (some c)
      else true
    else specAssignAux cs depth (some c)

/-- Modelled from the spec (§4.2): the claimed classifier — expression
unless the line begins with a keyword token, contains a top-level
assignment operator outside a trailing comment, ends with the
block-opening marker, or is an explicit print call. -/
def spec_is_expression (l : String) : Bool :=
  !(kwPrefixes.any (fun p => pyStartsWith l p)) &&
  !(specAssignAux l.data 0 none) &&
  !(pyEndsWith l ":") &&
  !(pyStartsWith l "print(")

/-! ## Execution session model (`repl.py` lines 265-357)

`exec`/`eval` of a chunk of Python against a namespace is abstracted by
an `Interp`.  An outcome carries the namespace after the chunk's
(in-place) mutations — also on failure, since a dict mutated before an
exception keeps its mutations — together with the text the chunk wrote
to the redirected stdout/stderr up to its end or failure point, and an
optional raised error. -/

/-- A raised Python error: whether it is an instance of `Exception`
(`SystemExit`/`KeyboardInterrupt` are `BaseException` only and escape the
`except Exception` handler), and its `str(e)` message. -/
structure PyErr where
  isExc : Bool
  msg : String
deriving DecidableEq

/-- Outcome of `exec(chunk, ns, ns)`. -/
structure ExecR where
  ns : NS
  out : String
  err : String
  exc : Option PyErr

/-- Outcome of `eval(line, ns, ns)`: additionally the resulting value
(meaningful only when no error was raised). -/
structure EvalR where
  ns : NS
  out : String
  err : String
  exc : Option PyErr
  val : Value

/-- The abstract interpreter for submitted code: `execS c ns` is the
outcome of `exec(c, ns, ns)`, `evalS c ns` of `eval(c, ns, ns)`, and
`reprS` is the builtin `repr`. -/
structure Interp where
  execS : String → NS → ExecR
  evalS : String → NS → EvalR
  reprS : Value → String

/-- The body execution plan derived from the submitted text. -/
inductive BodyPlan where
  /-- `other_lines` is empty (every line was an import line), so the
  `if other_lines:` block is skipped. -/
  | noBody : BodyPlan
  /-- Execute `other_code` as plain statements. -/
  | plain (other_code : String) : BodyPlan
  /-- Expression tail: optionally execute the statements chunk, evaluate
  the tail line, echo a non-`None` value, falling back to executing
  `other_code` when anything in the try block raises. -/
  | exprTail (stmts : Option String) (tail : String) (other_code : String) : BodyPlan
deriving DecidableEq

/-- The import/body split and classification of one submission
(`repl.py` lines 273-307 and 312-321). -/
structure Plan where
  importCode : Option String
  body : BodyPlan
deriving DecidableEq

/-- A line goes to the import group when it starts with `import ` or
`from ` (and not with a hash — redundant in the source, kept faithfully). -/
def isImportLine (line : String) : Bool :=
  (pyStartsWith line "import " || pyStartsWith line "from ") && !(pyStartsWith line "#")

/-- `planOf` derives the execution plan of a submission exactly as
`code_execution` does: split into lines, partition import lines from the
rest, join each group, filter blank and comment lines, classify the last
non-comment line, and — when it classifies as an expression and more than
one non-comment line exists — locate the *first* line equal to the last
line's text to delimit the statements chunk (`repl.py` lines 314-318). -/
def planOf (code : String) : Plan :=
  { importCode :=
      match (pyLines code).filter isImportLine with
      | [] => none
      | ls => some (pyJoin "\n" ls)
    body :=
      match (pyLines code).filter (fun l => !isImportLine l) with
      | [] => .noBody
      | other_lines =>
        match other_lines.filter (fun l => !l.data.isEmpty && !(pyStartsWith l "#")) with
        | [] => .plain (pyJoin "\n" other_lines)
        | non_comment_lines =>
          match non_comment_lines.getLast? with
          | none => .plain (pyJoin "\n" other_lines)
          | some last_line =>
            if is_expression last_line then
              .exprTail
                (if non_comment_lines.length > 1 then
                  match other_lines.findIdx? (fun l => l == last_line) with
                  | some i =>
                    if i > 0 then some (pyJoin "\n" (other_lines.take i)) else none
                  | none => none
                 else none)
                last_line
                (pyJoin "\n" other_lines)
            else .plain (pyJoin "\n" other_lines) }

/-- One `exec` call with output accumulated onto the capture buffers. -/
def runExec (I : Interp) (code : String) (ns : NS) (out err : String) : ExecR :=
  { ns := (I.execS code ns).ns
    out := out ++ (I.execS code ns).out
    err := err ++ (I.execS code ns).err
    exc := (I.execS code ns).exc }

/-- Result of running the body block. -/
structure BodyR where
  ns : NS
  out : String
  err : String
  exc : Option PyErr

/-- Coerce an `ExecR` into a `BodyR`. -/
def execToBody (r : ExecR) : BodyR := ⟨r.ns, r.out, r.err, r.exc⟩

/-- Evaluate the tail line (the inner part of the try block): on its
failure fall back to executing the whole body over the namespace as
mutated so far; a non-`None` value is echoed (`print(repr(result))`
appends to the captured stdout with a trailing newline). -/
def runEvalStep (I : Interp) (tail oc : String) (r1 : ExecR) : BodyR :=
  match (I.evalS tail r1.ns).exc with
  | some _ =>
    execToBody (runExec I oc (I.evalS tail r1.ns).ns
      (r1.out ++ (I.evalS tail r1.ns).out) (r1.err ++ (I.evalS tail r1.ns).err))
  | none =>
    { ns := (I.evalS tail r1.ns).ns
      out := r1.out ++ (I.evalS tail r1.ns).out ++
        (if (I.evalS tail r1.ns).val ≠ Value.vnone
         then I.reprS (I.evalS tail r1.ns).val ++ "\n" else "")
      err := r1.err ++ (I.evalS tail r1.ns).err
      exc := none }

/-- The try block around the expression tail: when the statements chunk
raised, the bare `except:` falls back immediately to executing the whole
body; otherwise the tail is evaluated. -/
def runExprTail (I : Interp) (tail oc : String) (r1 : ExecR) : BodyR :=
  match r1.exc with
  | some _ => execToBody (runExec I oc r1.ns r1.out r1.err)
  | none => runEvalStep I tail oc r1

/-- Execute the body block against the combined namespace (`repl.py`
lines 296-337): plain statements, or the expression tail with its
bare-`except` fallback to executing the whole body. -/
def runBody (I : Interp) (bp : BodyPlan) (ns : NS) : BodyR :=
  match bp with
  | .noBody => ⟨ns, "", "", none⟩
  | .plain oc => execToBody (runExec I oc ns "" "")
  | .exprTail stmts tail oc =>
    runExprTail I tail oc
      (match stmts with
       | some sc => runExec I sc ns "" ""
       | none => ⟨ns, "", "", none⟩)

/-- The write-back loop (`repl.py` lines 339-342): every key of the final
combined namespace that is not a key of the global namespace is written
into the local namespace; all other local entries are kept. -/
def writeBack (g l cf : NS) : NS :=
  fun k =>
    if (g k).isSome then l k
    else match cf k with
      | some v => some v
      | none => l k

/-- Run the import chunk, if any, against the global namespace
(`repl.py` lines 285-287). -/
def runImports (I : Interp) (g : NS) : Option String → ExecR
  | some ic => I.execS ic g
  | none => ⟨g, "", "", none⟩

/-- The session state: the capability globals and the persistent locals. -/
structure Session where
  globals : NS
  locals : NS

/-- Result of the try block of `code_execution`: accumulated buffer
contents, the uncaught error if one was raised, the session as mutated so
far, and (as an observation) the final combined namespace when the body
ran to the write-back. -/
structure InnerR where
  out : String
  err : String
  exc : Option PyErr
  sess : Session
  combinedFinal : Option NS

/-- Fold the body result into the try-block result: on an uncaught body
error the write-back is skipped (the handler at `repl.py` line 346 is
reached first); otherwise locals are updated from the combined namespace. -/
def innerRunBody (st : Session) (ri : ExecR) (r : BodyR) : InnerR :=
  match r.exc with
  | some e => ⟨ri.out ++ r.out, ri.err ++ r.err, some e, ⟨ri.ns, st.locals⟩, none⟩
  | none => ⟨ri.out ++ r.out, ri.err ++ r.err, none,
      ⟨ri.ns, writeBack ri.ns st.locals r.ns⟩, some r.ns⟩

/-- The try block of `code_execution`: imports first (an import failure
reaches the handler directly), then the body against the combined
namespace, then the write-back. -/
def innerRunAux (I : Interp) (st : Session) (ri : ExecR) : BodyPlan → InnerR
  | bp =>
    match ri.exc with
    | some e => ⟨ri.out, ri.err, some e, ⟨ri.ns, st.locals⟩, none⟩
    | none =>
      match bp with
      | .noBody => ⟨ri.out, ri.err, none, ⟨ri.ns, st.locals⟩, none⟩
      | .plain oc =>
        innerRunBody st ri (runBody I (.plain oc) (overlay ri.ns st.locals))
      | .exprTail a b c =>
        innerRunBody st ri (runBody I (.exprTail a b c) (overlay ri.ns st.locals))

/-- The try block of `code_execution` on a submission. -/
def innerRun (I : Interp) (st : Session) (code : String) : InnerR :=
  innerRunAux I st (runImports I st.globals (planOf code).importCode) (planOf code).body

/-- The value returned by `code_execution`: captured stdout, captured
stderr, and the snapshot `self.locals.copy()` (the wall-clock duration is
not modelled). -/
structure REPLResult where
  stdout : String
  stderr : String
  locals : NS

/-- Lines 353-357: store the captured texts under `_stdout`/`_stderr` in
the local namespace and return the result with a locals snapshot. -/
def finalizeOk (r : InnerR) (so se : String) : Except PyErr (REPLResult × Session) :=
  .ok (⟨so, se, nsSet (nsSet r.sess.locals "_stdout" (.vstr so)) "_stderr" (.vstr se)⟩,
       ⟨r.sess.globals, nsSet (nsSet r.sess.locals "_stdout" (.vstr so)) "_stderr" (.vstr se)⟩)

/-- The call boundary (`repl.py` lines 346-348): an `Exception` instance
is caught, its message appended to the captured stderr; any other raised
error propagates out of `code_execution` (skipping lines 353-357). -/
def code_executionAux (r : InnerR) : Except PyErr (REPLResult × Session) :=
  match r.exc with
  | none => finalizeOk r r.out r.err
  | some e => if e.isExc then finalizeOk r r.out (r.err ++ e.msg) else .error e

/-- `REPLEnv.code_execution` (`repl.py` lines 265-357), relative to an
abstract interpreter for the `exec`/`eval` calls. -/
def code_execution (I : Interp) (st : Session) (code : String) :
    Except PyErr (REPLResult × Session) :=
  code_executionAux (innerRun I st code)

/-! ## Host stream and working-directory redirection
(`repl.py` lines 233-263)

`_capture_output` swaps `sys.stdout`/`sys.stderr` for fresh in-memory
buffers and restores them in a `finally`; `_temp_working_directory` does
the same for the process working directory.  Both are modelled as scoped
state transformers over a `Host` record; the body's result lives in
`Except` so that the exception exit path is explicit — the restoration is
applied to the resulting host unconditionally, exactly like `finally`. -/

/-- Where a process stream currently points. -/
inductive StreamTarget where
  | hostStream : StreamTarget
  | captureBuffer : StreamTarget
deriving DecidableEq

/-- The process-wide state the two context managers touch. -/
structure Host where
  stdoutT : StreamTarget
  stderrT : StreamTarget
  cwd : String
deriving DecidableEq

/-- `REPLEnv._capture_output` (`repl.py` lines 233-253): redirect both
streams to fresh capture buffers for the body, restoring the originals on
every exit path. -/
def captureOutput {α : Type} (body : Host → Except PyErr α × Host) (h : Host) :
    Except PyErr α × Host :=
  ((body { h with stdoutT := .captureBuffer, stderrT := .captureBuffer }).1,
   { (body { h with stdoutT := .captureBuffer, stderrT := .captureBuffer }).2 with
      stdoutT := h.stdoutT, stderrT := h.stderrT })

/-- `REPLEnv._temp_working_directory` (`repl.py` lines 255-263): switch
the working directory to the session workspace for the body, restoring
the old directory on every exit path. -/
def tempWorkingDirectory {α : Type} (tempDir : String)
    (body : Host → Except PyErr α × Host) (h : Host) : Except PyErr α × Host :=
  ((body { h with cwd := tempDir }).1,
   { (body { h with cwd := tempDir }).2 with cwd := h.cwd })

/-! ## Observation helpers over execution results -/

/-- Did `code_execution` return (as opposed to raise)? -/
def execOk : Except PyErr (REPLResult × Session) → Bool
  | .ok _ => true
  | .error _ => false

/-- The returned captured stdout, when the call returned. -/
def execStdout : Except PyErr (REPLResult × Session) → Option String
  | .ok (r, _) => some r.stdout
  | .error _ => none

/-- The returned captured stderr, when the call returned. -/
def execStderr : Except PyErr (REPLResult × Session) → Option String
  | .ok (r, _) => some r.stderr
  | .error _ => none

/-- The error a raising call propagated. -/
def execErr : Except PyErr (REPLResult × Session) → Option PyErr
  | .ok _ => none
  | .error e => some e

/-- One key of the session's local namespace after a returning call. -/
def okLocalsAt (x : Except PyErr (REPLResult × Session)) (k : String) :
    Option (Option Value) :=
  match x with
  | .ok (_, s) => some (s.locals k)
  | .error _ => none

/-- One key of the session's global namespace after a returning call. -/
def okGlobalsAt (x : Except PyErr (REPLResult × Session)) (k : String) :
    Option (Option Value) :=
  match x with
  | .ok (_, s) => some (s.globals k)
  | .error _ => none

/-- One key of the combined namespace a next submission would execute
against, after a returning call. -/
def okCombinedAt (x : Except PyErr (REPLResult × Session)) (k : String) :
    Option (Option Value) :=
  match x with
  | .ok (_, s) => some (overlay s.globals s.locals k)
  | .error _ => none

/-- One key of the returned locals snapshot. -/
def resLocalsAt (x : Except PyErr (REPLResult × Session)) (k : String) :
    Option (Option Value) :=
  match x with
  | .ok (r, _) => some (r.locals k)
  | .error _ => none

/-- One key of the final combined namespace of the try block (the
namespace the write-back reads), when the body ran to the write-back. -/
def combinedFinalAt (I : Interp) (st : Session) (code : String) (k : String) :
    Option (Option Value) :=
  (innerRun I st code).combinedFinal.map (fun cf => cf k)

/-- One submission against the session: the updated session on a normal
return, `none` when the call raised. -/
def runStep (st : Session) (ic : Interp × String) : Option Session :=
  match code_execution ic.1 st ic.2 with
  | .ok (_, st') => some st'
  | .error _ => none

/-- A sequence of submissions, each starting from the previous session. -/
def runSeqO : Option Session → List (Interp × String) → Option Session
  | none, _ => none
  | some st, [] => some st
  | some st, ic :: rest => runSeqO (runStep st ic) rest

/-- One key of the local namespace of an optional session. -/
def localsAtO (s : Option Session) (k : String) : Option (Option Value) :=
  s.map (fun ss => ss.locals k)

/-- One key of the combined namespace of an optional session. -/
def combinedAtO (s : Option Session) (k : String) : Option (Option Value) :=
  s.map (fun ss => overlay ss.globals ss.locals k)

/-- An abstract chunk semantics never touching the binding of `x`:
every `exec` and `eval` outcome leaves key `x` of its namespace argument
unchanged.  This is the formal sense in which a submission "does not
reassign `x`". -/
def PreservesVar (I : Interp) (x : String) : Prop :=
  (∀ c ns, (I.execS c ns).ns x = ns x) ∧ (∀ c ns, (I.evalS c ns).ns x = ns x)

/-! ## Helper lemmas -/

theorem append_ne_empty_of_right (a b : String) (h : b ≠ "") : a ++ b ≠ "" := by
  intro hc
  apply h
  have hd : (a ++ b).data = ("" : String).data := by rw [hc]
  rw [String.data_append] at hd
  have hb : b.data = [] := (List.append_eq_nil.mp hd).2
  exact String.ext hb

theorem overlay_at_local (g l : NS) (x : String) (v : Value) (hl : l x = some v) :
    overlay g l x = some v := by
  unfold overlay
  rw [hl]

theorem writeBack_at_some (g l cf : NS) (x : String) (v : Value)
    (hl : l x = some v) (hcf : cf x = some v) : writeBack g l cf x = some v := by
  unfold writeBack
  split
  · exact hl
  · rw [hcf]

theorem writeBack_at_global (g l cf : NS) (x : String) (hg : (g x).isSome) :
    writeBack g l cf x = l x := by
  unfold writeBack
  simp [hg]

theorem runExprTail_preserves (I : Interp) (x : String) (hI : PreservesVar I x)
    (tail oc : String) (r1 : ExecR) : (runExprTail I tail oc r1).ns x = r1.ns x := by
  unfold runExprTail runEvalStep
  cases h : r1.exc with
  | some e => simp [execToBody, runExec, hI.1]
  | none =>
    cases h2 : (I.evalS tail r1.ns).exc with
    | some e => simp [execToBody, runExec, hI.1, hI.2]
    | none => simp [hI.2]

theorem runBody_preserves (I : Interp) (x : String) (hI : PreservesVar I x)
    (bp : BodyPlan) (ns : NS) : (runBody I bp ns).ns x = ns x := by
  cases bp with
  | noBody => rfl
  | plain oc => simpa [runBody, execToBody, runExec] using hI.1 oc ns
  | exprTail stmts tail oc =>
    show (runExprTail I tail oc _).ns x = ns x
    rw [runExprTail_preserves I x hI]
    cases stmts with
    | none => rfl
    | some sc => simpa [runExec] using hI.1 sc ns

theorem innerRunBody_locals_at (st : Session) (ri : ExecR) (r : BodyR) (x : String)
    (v : Value) (hl : st.locals x = some v) (hr : r.ns x = some v) :
    (innerRunBody st ri r).sess.locals x = some v := by
  unfold innerRunBody
  cases hre : r.exc with
  | some e => exact hl
  | none => exact writeBack_at_some _ _ _ x v hl hr

theorem innerRunAux_locals_preserved (I : Interp) (st : Session) (ri : ExecR)
    (bp : BodyPlan) (x : String) (v : Value) (hI : PreservesVar I x)
    (hv : st.locals x = some v) :
    (innerRunAux I st ri bp).sess.locals x = some v := by
  obtain ⟨rns, rout, rerr, rexc⟩ := ri
  cases rexc with
  | some e => exact hv
  | none =>
    cases bp with
    | noBody => exact hv
    | plain oc =>
      exact innerRunBody_locals_at st _ _ x v hv
        (by rw [runBody_preserves I x hI]; exact overlay_at_local _ _ x v hv)
    | exprTail a b c =>
      exact innerRunBody_locals_at st _ _ x v hv
        (by rw [runBody_preserves I x hI]; exact overlay_at_local _ _ x v hv)

theorem innerRun_locals_preserved (I : Interp) (st : Session) (code x : String) (v : Value)
    (hI : PreservesVar I x) (hv : st.locals x = some v) :
    (innerRun I st code).sess.locals x = some v := by
  unfold innerRun
  exact innerRunAux_locals_preserved I st _ _ x v hI hv

theorem runStep_locals_preserved (ic : Interp × String) (st st' : Session) (x : String)
    (v : Value) (hI : PreservesVar ic.1 x) (h1 : x ≠ "_stdout") (h2 : x ≠ "_stderr")
    (hv : st.locals x = some v) (hs : runStep st ic = some st') :
    st'.locals x = some v := by
  have hsess := innerRun_locals_preserved ic.1 st ic.2 x v hI hv
  unfold runStep code_execution code_executionAux at hs
  cases he : (innerRun ic.1 st ic.2).exc with
  | none =>
    rw [he] at hs
    simp only [finalizeOk] at hs
    cases hs
    simp [nsSet, h1, h2, hsess]
  | some e =>
    rw [he] at hs
    by_cases hex : e.isExc = true
    · simp only [hex, if_true, finalizeOk] at hs
      cases hs
      simp [nsSet, h1, h2, hsess]
    · simp only [hex, if_false, Bool.false_eq_true] at hs
      cases hs

theorem runSeqO_locals_preserved (x : String) (v : Value) (mids : List (Interp × String))
    (h1 : x ≠ "_stdout") (h2 : x ≠ "_stderr") :
    ∀ st : Session, st.locals x = some v → (∀ ic ∈ mids, PreservesVar ic.1 x) →
      ∀ st', runSeqO (some st) mids = some st' → st'.locals x = some v := by
  induction mids with
  | nil =>
    intro st hv _ st' h
    cases h
    exact hv
  | cons ic rest ih =>
    intro st hv hall st' h
    unfold runSeqO at h
    cases hs : runStep st ic with
    | none => rw [hs] at h; exact absurd h (by simp [runSeqO])
    | some st1 =>
      rw [hs] at h
      exact ih st1
        (runStep_locals_preserved ic st st1 x v (hall ic (by simp)) h1 h2 hv hs)
        (fun j hj => hall j (by simp [hj])) st' h

theorem innerRunBody_shape (st : Session) (ri : ExecR) (r : BodyR) (cf : NS)
    (h : (innerRunBody st ri r).combinedFinal = some cf) :
    (innerRunBody st ri r).exc = none ∧
    (innerRunBody st ri r).sess.globals = ri.ns ∧
    (innerRunBody st ri r).sess.locals = writeBack ri.ns st.locals cf := by
  unfold innerRunBody at *
  cases hre : r.exc with
  | some e => rw [hre] at h; simp at h
  | none =>
    rw [hre] at h
    simp only [Option.some.injEq] at h
    subst h
    exact ⟨rfl, rfl, rfl⟩

theorem innerRunAux_shape (I : Interp) (st : Session) (ri : ExecR) (bp : BodyPlan) (cf : NS)
    (h : (innerRunAux I st ri bp).combinedFinal = some cf) :
    (innerRunAux I st ri bp).exc = none ∧
    (innerRunAux I st ri bp).sess.globals = ri.ns ∧
    (innerRunAux I st ri bp).sess.locals = writeBack ri.ns st.locals cf := by
  obtain ⟨rns, rout, rerr, rexc⟩ := ri
  cases rexc with
  | some e => exact absurd h (by simp [innerRunAux])
  | none =>
    cases bp with
    | noBody => exact absurd h (by simp [innerRunAux])
    | plain oc =>
      have hs := innerRunBody_shape st _ _ cf h
      refine ⟨hs.1, ?_, ?_⟩
      · exact hs.2.1
      · exact hs.2.2
    | exprTail a b c =>
      have hs := innerRunBody_shape st _ _ cf h
      refine ⟨hs.1, ?_, ?_⟩
      · exact hs.2.1
      · exact hs.2.2

theorem innerRun_shape (I : Interp) (st : Session) (code : String) (cf : NS)
    (h : (innerRun I st code).combinedFinal = some cf) :
    (innerRun I st code).exc = none ∧
    (innerRun I st code).sess.locals
      = writeBack (innerRun I st code).sess.globals st.locals cf := by
  unfold innerRun at h ⊢
  have hs := innerRunAux_shape I st _ _ cf h
  refine ⟨hs.1, ?_⟩
  rw [hs.2.1]
  exact hs.2.2

theorem runStep_writeback_at (I : Interp) (st : Session) (c : String) (cf : NS)
    (k : String) (w : Value)
    (hsome : (innerRun I st c).combinedFinal = some cf)
    (hg : (innerRun I st c).sess.globals k = none)
    (hk1 : k ≠ "_stdout") (hk2 : k ≠ "_stderr") (hcfk : cf k = some w) :
    localsAtO (runStep st (I, c)) k = some (some w) := by
  obtain ⟨hexc, hloc⟩ := innerRun_shape I st c cf hsome
  unfold runStep code_execution code_executionAux
  rw [hexc]
  simp only [finalizeOk, localsAtO, Option.map_some]
  have : writeBack (innerRun I st c).sess.globals st.locals cf k = some w := by
    unfold writeBack
    rw [hg]
    simp [hcfk]
  simp [nsSet, hk1, hk2]
  rw [hloc, this]

/-! ## Concrete interpreters used by witnesses and counterexamples -/

/-- Models a submission whose statements raise `ZeroDivisionError`
(message `division by zero`); evaluating it as an expression raises a
`SyntaxError` when it is not one. -/
def failInterp : Interp where
  execS := fun _ ns => ⟨ns, "", "", some ⟨true, "division by zero"⟩⟩
  evalS := fun _ ns => ⟨ns, "", "", some ⟨true, "invalid syntax"⟩, .vnone⟩
  reprS := fun _ => ""

/-- Models `raise ValueError()`: an `Exception` instance whose `str` is
the empty string. -/
def emptyMsgInterp : Interp where
  execS := fun _ ns => ⟨ns, "", "", some ⟨true, ""⟩⟩
  evalS := fun _ ns => ⟨ns, "", "", some ⟨true, "invalid syntax"⟩, .vnone⟩
  reprS := fun _ => ""

/-- Models `raise SystemExit(1)`: a `BaseException` that is not an
`Exception` instance, escaping the `except Exception` handler. -/
def sysExitInterp : Interp where
  execS := fun _ ns => ⟨ns, "", "", some ⟨false, "1"⟩⟩
  evalS := fun _ ns => ⟨ns, "", "", some ⟨true, "invalid syntax"⟩, .vnone⟩
  reprS := fun _ => ""

/-- Models running `2 + 2` / `y = 1` chunks: executing statements binds
`y`, evaluating the expression yields `4`. -/
def dupTailInterp : Interp where
  execS := fun _ ns => ⟨nsSet ns "y" (.vint 1), "", "", none⟩
  evalS := fun _ ns => ⟨ns, "", "", none, .vint 4⟩
  reprS := fun _ => "4"

/-- Models the submission `llm_query = 5`: rebinds the injected
capability name in the combined namespace. -/
def rebindInterp : Interp where
  execS := fun _ ns => ⟨nsSet ns "llm_query" (.vstr "5"), "", "", none⟩
  evalS := fun _ ns => ⟨ns, "", "", none, .vnone⟩
  reprS := fun _ => ""

/-- Models the submission `_stdout = 1`: binds the reserved capture key
in the combined namespace. -/
def stdoutRebindInterp : Interp where
  execS := fun _ ns => ⟨nsSet ns "_stdout" (.vint 1), "", "", none⟩
  evalS := fun _ ns => ⟨ns, "", "", none, .vnone⟩
  reprS := fun _ => ""

/-- Models the submission `ans = 42`. -/
def assignAnsInterp : Interp where
  execS := fun _ ns => ⟨nsSet ns "ans" (.vstr "42"), "", "", none⟩
  evalS := fun _ ns => ⟨ns, "", "", none, .vnone⟩
  reprS := fun _ => ""

/-- Models the submission `z = 2`, which does not touch `ans`. -/
def assignZInterp : Interp where
  execS := fun _ ns => ⟨nsSet ns "z" (.vint 2), "", "", none⟩
  evalS := fun _ ns => ⟨ns, "", "", none, .vnone⟩
  reprS := fun _ => ""

/-- A global namespace holding only the injected capability `llm_query`. -/
def capGlobals : NS := fun k => if k = "llm_query" then some (.vobj 0) else none

/-- A session right after construction: capability globals, no locals. -/
def capSession : Session := ⟨capGlobals, emptyNS⟩

/-- A session with empty globals and locals (isolating body behaviour). -/
def plainSession : Session := ⟨emptyNS, emptyNS⟩

/-- Models the submission `x = 1` followed by `1/0`: executing the
statements chunk `x = 1` binds `x`; evaluating `1/0` raises
`ZeroDivisionError`; the bare-`except` fallback re-executes the whole
body, which binds `x` in the (in-place mutated) namespace and then
raises `ZeroDivisionError` again. -/
def assignThenFailInterp : Interp where
  execS := fun c ns =>
    if c = "x = 1" then ⟨nsSet ns "x" (.vint 1), "", "", none⟩
    else ⟨nsSet ns "x" (.vint 1), "", "", some ⟨true, "division by zero"⟩⟩
  evalS := fun _ ns => ⟨ns, "", "", some ⟨true, "division by zero"⟩, .vnone⟩
  reprS := fun _ => ""

/-! ## Claims -/

/-- C1 (counterexample): the claim fails on the code in two ways.
`raise ValueError()` is caught at the boundary, but `str(e)` is empty and
nothing was captured before it, so the returned stderr is empty — not
non-empty as claimed.  `raise SystemExit(1)` is not an `Exception`
instance, so the `except Exception` handler at `repl.py` line 346 does
not catch it and `code_execution` raises instead of returning. -/
theorem C1_error_boundary_counterexample :
    (execOk (code_execution emptyMsgInterp plainSession "raise ValueError()") = true ∧
     execStderr (code_execution emptyMsgInterp plainSession "raise ValueError()") = some "") ∧
    execErr (code_execution sysExitInterp plainSession "raise SystemExit(1)")
      = some ⟨false, "1"⟩ := by
  refine ⟨⟨?_, ?_⟩, ?_⟩ <;> rfl

/-- C1 (amended): when the submitted code fails with an error that is an
`Exception` instance, `code_execution` returns normally, the returned
stdout is the captured output up to the failure point, the returned
stderr is the captured stderr up to the failure point with the failure's
textual message appended, and that stderr is non-empty whenever the
message is non-empty. -/
theorem C1_error_boundary_amended (I : Interp) (st : Session) (code : String) (e : PyErr)
    (hexc : (innerRun I st code).exc = some e) (hisexc : e.isExc = true) :
    execOk (code_execution I st code) = true ∧
    execStdout (code_execution I st code) = some (innerRun I st code).out ∧
    execStderr (code_execution I st code) = some ((innerRun I st code).err ++ e.msg) ∧
    (e.msg ≠ "" → ∀ s, execStderr (code_execution I st code) = some s → s ≠ "") := by
  have hC : code_execution I st code
      = finalizeOk (innerRun I st code) (innerRun I st code).out
          ((innerRun I st code).err ++ e.msg) := by
    unfold code_execution code_executionAux
    rw [hexc]
    simp [hisexc]
  refine ⟨?_, ?_, ?_, ?_⟩
  · rw [hC]; rfl
  · rw [hC]; rfl
  · rw [hC]; rfl
  · intro hm s hs
    rw [hC] at hs
    simp only [finalizeOk, execStderr] at hs
    cases hs
    exact append_ne_empty_of_right _ _ hm

/-- C1 (witness for the amended theorem): the submission `1/0` raises
`ZeroDivisionError` with message `division by zero`; the call returns
normally and the returned stderr is exactly that message. -/
theorem C1_error_boundary_amended_witness :
    execOk (code_execution failInterp plainSession "1/0") = true ∧
    execStderr (code_execution failInterp plainSession "1/0")
      = some "division by zero" := by
  have h := C1_error_boundary_amended failInterp plainSession "1/0"
      ⟨true, "division by zero"⟩ (by decide) rfl
  exact ⟨h.1, h.2.2.1⟩

/-- C2 (code bug): on a reply without any fenced block, `find_code_blocks`
returns the empty list, not the absent-result marker `None` its docstring
promises; since `[] is not None`, the per-iteration step of
`RLM_REPL.completion` takes the code-execution branch (which appends
nothing for an empty block list), and the branch commented
"Add assistant message when there are no code blocks" is unreachable, so
the raw reply is never appended as an assistant message. -/
theorem C2_no_blocks_dead_branch :
    find_code_blocks "I could not find any code blocks." = some [] ∧
    completion_step "I could not find any code blocks." [] (fun _ => "") = [] := by
  constructor
  · rfl
  · rfl

/-- C4 (code bug): on the submission `2 + 2` / `y = 1` / `2 + 2`, whose
last line classifies as an expression but duplicates an earlier body
line, `code_execution` locates the *first* line equal to the last line's
text (index 0, `repl.py` lines 315-318), so it executes no statements
before evaluating the tail: the plan carries no statements chunk, the
assignment `y = 1` never runs (no `y` in the resulting locals), yet the
tail's value is echoed to captured stdout. -/
theorem C4_duplicate_tail_skips_statements :
    (planOf "2 + 2\ny = 1\n2 + 2").body
      = BodyPlan.exprTail none "2 + 2" "2 + 2\ny = 1\n2 + 2" ∧
    okLocalsAt (code_execution dupTailInterp plainSession "2 + 2\ny = 1\n2 + 2") "y"
      = some none ∧
    execStdout (code_execution dupTailInterp plainSession "2 + 2\ny = 1\n2 + 2")
      = some "4\n" := by
  refine ⟨?_, ?_, ?_⟩
  · rfl
  · rfl
  · rfl

/-- C5 (counterexample): the claimed classifier and the implemented one
disagree on `x == 1`.  The code tests `'=' not in last_line.split('#')[0]`,
so the comparison's equals signs make it a non-expression; the claim's
"top-level assignment operator" condition does not fire on `==`, so the
claimed classifier deems the line an expression. -/
theorem C5_classifier_counterexample :
    is_expression "x == 1" = false ∧ spec_is_expression "x == 1" = true := by
  constructor
  · rfl
  · rfl

/-- C5 (amended): the classifier deems the last line an expression iff it
does not start with any of the statement-keyword prefixes, the character
`=` does not occur anywhere before the first `#` (regardless of whether
that occurrence is an assignment operator), the line does not end with
`:`, and it does not start with `print(`. -/
theorem C5_classifier_amended (l : String) :
    is_expression l = true ↔
      ((kwPrefixes.any (fun p => pyStartsWith l p)) = false ∧
       (l.data.takeWhile (fun c => c != '#')).contains '=' = false ∧
       pyEndsWith l ":" = false ∧
       pyStartsWith l "print(" = false) := by
  unfold is_expression
  rw [pySplitOn_head]
  simp [Bool.and_eq_true, and_assoc]

/-- C6: composing `_capture_output` (outer) with
`_temp_working_directory` (inner) as `code_execution` does, the body runs
against a host whose stdout/stderr point at the in-memory capture buffers
and whose working directory is the session workspace, and — whether the
body returns a value or an exception — the host afterwards equals the
original host exactly: both streams and the working directory are
restored on every exit path. -/
theorem C6_redirection_scoped {β : Type} (body : Host → Except PyErr β × Host)
    (tempDir : String) (h : Host) :
    captureOutput (tempWorkingDirectory tempDir body) h
      = ((body ⟨.captureBuffer, .captureBuffer, tempDir⟩).1, h) := by
  unfold captureOutput tempWorkingDirectory
  rfl

/-- C7: whenever the named-variable directive pattern matches somewhere
in the reply and the literal directive pattern also matches, the
extraction returns the named-variable form — by the explicit ordering of
`find_final_answer`, the literal pattern is consulted only after the
named-variable search fails. -/
theorem C7_final_var_precedence (text : String) (g g' : List Char)
    (h1 : lineSearchAux "FINAL_VAR(".data true text.data = some g)
    (_h2 : lineSearchAux "FINAL(".data true text.data = some g') :
    find_final_answer text = some ("FINAL_VAR", String.mk (pyStripList g)) := by
  unfold find_final_answer
  rw [h1]

/-- C7 (witness): a reply where the literal directive appears first and
the named-variable directive second still resolves to the named-variable
form. -/
theorem C7_final_var_precedence_witness :
    find_final_answer "FINAL(42)\nFINAL_VAR(ans)" = some ("FINAL_VAR", "ans") :=
  C7_final_var_precedence "FINAL(42)\nFINAL_VAR(ans)" "ans".data "42".data
    (by decide) (by decide)

/-- C8: a named-variable directive whose stripped variable name is not a
key of the session's local namespace yields no final answer: the check
returns `none` (no error surfaces to the caller), so the orchestrator
iteration continues. -/
theorem C8_missing_variable_no_answer (response content : String) (locals : NS)
    (hfind : find_final_answer response = some ("FINAL_VAR", content))
    (hmiss : locals (stripChain content) = none) :
    check_for_final_answer response locals = none := by
  unfold check_for_final_answer
  rw [hfind]
  simp only [reduceIte, String.reduceEq]
  rw [hmiss]

/-- C8 (witness): the reply `FINAL_VAR(missing)` against an empty local
namespace produces no final answer. -/
theorem C8_missing_variable_no_answer_witness :
    check_for_final_answer "FINAL_VAR(missing)" emptyNS = none :=
  C8_missing_variable_no_answer "FINAL_VAR(missing)" "missing" emptyNS (by decide) rfl

/-! ## Further helper lemmas for the namespace claims -/

theorem innerRunBody_globals (st : Session) (ri : ExecR) (r : BodyR) :
    (innerRunBody st ri r).sess.globals = ri.ns := by
  obtain ⟨a, b, c, rexc⟩ := r
  cases rexc <;> rfl

theorem innerRunBody_locals_global (st : Session) (ri : ExecR) (r : BodyR) (g : String)
    (hg : (ri.ns g).isSome) :
    (innerRunBody st ri r).sess.locals g = st.locals g := by
  obtain ⟨a, b, c, rexc⟩ := r
  cases rexc with
  | some e => rfl
  | none => exact writeBack_at_global _ _ _ g hg

theorem innerRunAux_noimp_globals (I : Interp) (st : Session) (bp : BodyPlan) :
    (innerRunAux I st ⟨st.globals, "", "", none⟩ bp).sess.globals = st.globals := by
  cases bp with
  | noBody => rfl
  | plain oc => exact innerRunBody_globals st _ _
  | exprTail a b c => exact innerRunBody_globals st _ _

theorem innerRunAux_noimp_locals_global (I : Interp) (st : Session) (bp : BodyPlan)
    (g : String) (hg : (st.globals g).isSome) :
    (innerRunAux I st ⟨st.globals, "", "", none⟩ bp).sess.locals g = st.locals g := by
  cases bp with
  | noBody => rfl
  | plain oc => exact innerRunBody_locals_global st _ _ g hg
  | exprTail a b c => exact innerRunBody_locals_global st _ _ g hg

theorem code_executionAux_at_key (r : InnerR) (k : String)
    (h1 : k ≠ "_stdout") (h2 : k ≠ "_stderr")
    (hok : execOk (code_executionAux r) = true) :
    okGlobalsAt (code_executionAux r) k = some (r.sess.globals k) ∧
    okLocalsAt (code_executionAux r) k = some (r.sess.locals k) ∧
    okCombinedAt (code_executionAux r) k
      = some (overlay r.sess.globals r.sess.locals k) := by
  obtain ⟨out, err, exc, sess, cfo⟩ := r
  cases exc with
  | none =>
    refine ⟨?_, ?_, ?_⟩ <;>
      simp [code_executionAux, finalizeOk, okGlobalsAt, okLocalsAt, okCombinedAt,
        overlay, nsSet, h1, h2]
  | some e =>
    by_cases hex : e.isExc = true
    · refine ⟨?_, ?_, ?_⟩ <;>
        simp [code_executionAux, finalizeOk, okGlobalsAt, okLocalsAt, okCombinedAt,
          overlay, nsSet, h1, h2, hex]
    · exact absurd hok (by simp [code_executionAux, execOk, hex])

/-- C9: a submission without import lines that rebinds a key of the
global namespace (a capability built-in or injected primitive) does not
persist the rebinding: after a returning call, the global namespace still
maps the key to its original value, the local namespace still lacks the
key (the write-back at `repl.py` lines 341-342 skips keys present in the
globals), and the combined namespace the next submission executes against
yields the original global value. -/
theorem C9_global_rebind_not_persisted (I : Interp) (st : Session) (code g : String)
    (w : Value) (hg : st.globals g = some w) (hl : st.locals g = none)
    (h1 : g ≠ "_stdout") (h2 : g ≠ "_stderr")
    (hnoimp : (planOf code).importCode = none)
    (hok : execOk (code_execution I st code) = true) :
    okGlobalsAt (code_execution I st code) g = some (some w) ∧
    okLocalsAt (code_execution I st code) g = some none ∧
    okCombinedAt (code_execution I st code) g = some (some w) := by
  have hgs : (st.globals g).isSome := by rw [hg]; rfl
  have hIR : innerRun I st code
      = innerRunAux I st ⟨st.globals, "", "", none⟩ (planOf code).body := by
    unfold innerRun
    rw [hnoimp]
    rfl
  have hks := code_executionAux_at_key (innerRun I st code) g h1 h2 hok
  have hgl : (innerRun I st code).sess.globals g = some w := by
    rw [hIR, innerRunAux_noimp_globals, hg]
  have hll : (innerRun I st code).sess.locals g = none := by
    rw [hIR, innerRunAux_noimp_locals_global I st _ g hgs, hl]
  unfold code_execution
  refine ⟨?_, ?_, ?_⟩
  · rw [hks.1, hgl]
  · rw [hks.2.1, hll]
  · rw [hks.2.2]
    unfold overlay
    rw [hll, hgl]

/-- C9 (witness): with globals `{llm_query ↦ object}` and the submission
`llm_query = 5` (which rebinds `llm_query` in the combined namespace),
the session afterwards still has the original object in globals, no
`llm_query` in locals, and a next submission reads the original object. -/
theorem C9_global_rebind_not_persisted_witness :
    okGlobalsAt (code_execution rebindInterp capSession "llm_query = 5") "llm_query"
      = some (some (.vobj 0)) ∧
    okLocalsAt (code_execution rebindInterp capSession "llm_query = 5") "llm_query"
      = some none ∧
    okCombinedAt (code_execution rebindInterp capSession "llm_query = 5") "llm_query"
      = some (some (.vobj 0)) :=
  C9_global_rebind_not_persisted rebindInterp capSession "llm_query = 5" "llm_query"
    (.vobj 0) rfl rfl (by decide) (by decide) (by decide) rfl

/-- C10: after every returning `code_execution` call — whatever the
submission does, including defining nothing — the session's local
namespace maps `_stdout` and `_stderr` to exactly the call's captured
stdout/stderr texts, and the same holds in the returned locals snapshot
(`repl.py` lines 353-357).  Consequently a session variable named
`_stdout` or `_stderr` is overwritten on every call.  On a raising call
both sides are the absent marker, so the equations hold unconditionally. -/
theorem C10_capture_keys_bound (I : Interp) (st : Session) (code : String) :
    okLocalsAt (code_execution I st code) "_stdout"
      = (execStdout (code_execution I st code)).map (fun s => some (.vstr s)) ∧
    okLocalsAt (code_execution I st code) "_stderr"
      = (execStderr (code_execution I st code)).map (fun s => some (.vstr s)) ∧
    resLocalsAt (code_execution I st code) "_stdout"
      = (execStdout (code_execution I st code)).map (fun s => some (.vstr s)) ∧
    resLocalsAt (code_execution I st code) "_stderr"
      = (execStderr (code_execution I st code)).map (fun s => some (.vstr s)) := by
  unfold code_execution
  generalize innerRun I st code = r
  obtain ⟨out, err, exc, sess, cfo⟩ := r
  cases exc with
  | none =>
    refine ⟨?_, ?_, ?_, ?_⟩ <;>
      simp [code_executionAux, finalizeOk, okLocalsAt, resLocalsAt, execStdout,
        execStderr, nsSet]
  | some e =>
    by_cases hex : e.isExc = true <;>
      refine ⟨?_, ?_, ?_, ?_⟩ <;>
        simp [code_executionAux, finalizeOk, okLocalsAt, resLocalsAt, execStdout,
          execStderr, nsSet, hex]

/-- C3 (counterexample): the claim fails for three families of
submissions, each with no intervening submission reassigning the name.
First, rebinding the injected global `llm_query` (submission
`llm_query = 5`) reaches the final combined namespace, but the write-back
skips global keys, so the next submission observes the original object,
not `5`.  Second, assigning the reserved name `_stdout` persists through
the write-back but is immediately overwritten by the captured-output
injection at `repl.py` line 354, so the next submission observes the
captured text, not the assigned value.  Third, the submission
`x = 1` / `1/0` assigns `x` (the statements chunk binds it in the
combined namespace) and returns normally — its `ZeroDivisionError` is
caught at the `except Exception` boundary — yet the jump to the handler
skips the write-back loop entirely (`repl.py` lines 339-342 are inside
the `try`), so the session's locals afterwards lack `x` and a later
submission does not observe the assigned value. -/
theorem C3_persistence_counterexample :
    (combinedFinalAt rebindInterp capSession "llm_query = 5" "llm_query"
        = some (some (.vstr "5")) ∧
     okLocalsAt (code_execution rebindInterp capSession "llm_query = 5") "llm_query"
        = some none ∧
     okCombinedAt (code_execution rebindInterp capSession "llm_query = 5") "llm_query"
        = some (some (.vobj 0))) ∧
    (combinedFinalAt stdoutRebindInterp plainSession "_stdout = 1" "_stdout"
        = some (some (.vint 1)) ∧
     okLocalsAt (code_execution stdoutRebindInterp plainSession "_stdout = 1") "_stdout"
        = some (some (.vstr ""))) ∧
    ((planOf "x = 1\n1/0").body
        = BodyPlan.exprTail (some "x = 1") "1/0" "x = 1\n1/0" ∧
     (assignThenFailInterp.execS "x = 1"
        (overlay plainSession.globals plainSession.locals)).ns "x" = some (.vint 1) ∧
     execOk (code_execution assignThenFailInterp plainSession "x = 1\n1/0") = true ∧
     execStderr (code_execution assignThenFailInterp plainSession "x = 1\n1/0")
        = some "division by zero" ∧
     (innerRun assignThenFailInterp plainSession "x = 1\n1/0").combinedFinal.isSome
        = false ∧
     okLocalsAt (code_execution assignThenFailInterp plainSession "x = 1\n1/0") "x"
        = some none) := by
  refine ⟨⟨?_, ?_, ?_⟩, ⟨?_, ?_⟩, ?_, ?_, ?_, ?_, ?_, ?_⟩ <;> rfl

/-- C3 (amended): for every variable name `x` that is neither a key of
the global namespace nor one of the reserved capture keys
`_stdout`/`_stderr`: when a submission's body executes to the write-back
without an uncaught error (`combinedFinal` is present — a body whose
error is merely caught at the `except Exception` boundary skips the
write-back and is excluded, per the counterexample's third family) and
leaves `x` bound to `v` in the final combined namespace, the session's
local namespace maps `x` to `v` afterwards; after any sequence of
further returning submissions none of which touches `x`, the local
namespace still maps `x` to `v` and the combined namespace a reading
submission executes against yields `v`.  Moreover (the mechanism,
`repl.py` lines 339-342) every non-global, non-reserved key of the final
combined namespace is written back into the local namespace. -/
theorem C3_persistence_amended (x : String) (v : Value) (st0 : Session) (I1 : Interp)
    (c1 : String) (mids : List (Interp × String))
    (h1 : x ≠ "_stdout") (h2 : x ≠ "_stderr")
    (hsome : (innerRun I1 st0 c1).combinedFinal.isSome = true)
    (hassign : combinedFinalAt I1 st0 c1 x = some (some v))
    (hg : (innerRun I1 st0 c1).sess.globals x = none)
    (hmids : ∀ ic ∈ mids, PreservesVar ic.1 x) :
    localsAtO (runStep st0 (I1, c1)) x = some (some v) ∧
    (∀ stN, runSeqO (runStep st0 (I1, c1)) mids = some stN →
      stN.locals x = some v ∧ overlay stN.globals stN.locals x = some v) ∧
    (∀ k w, (innerRun I1 st0 c1).sess.globals k = none → k ≠ "_stdout" → k ≠ "_stderr" →
      combinedFinalAt I1 st0 c1 k = some (some w) →
      localsAtO (runStep st0 (I1, c1)) k = some (some w)) := by
  obtain ⟨cf, hcf⟩ := Option.isSome_iff_exists.mp hsome
  have hcfx : cf x = some v := by
    unfold combinedFinalAt at hassign
    rw [hcf] at hassign
    simpa using hassign
  have hEst : localsAtO (runStep st0 (I1, c1)) x = some (some v) :=
    runStep_writeback_at I1 st0 c1 cf x v hcf hg h1 h2 hcfx
  refine ⟨hEst, ?_, ?_⟩
  · intro stN hseq
    cases hrs : runStep st0 (I1, c1) with
    | none => rw [hrs] at hEst; simp [localsAtO] at hEst
    | some st1 =>
      have hst1 : st1.locals x = some v := by
        rw [hrs] at hEst
        simpa [localsAtO] using hEst
      rw [hrs] at hseq
      have hfin := runSeqO_locals_preserved x v mids h1 h2 st1 hst1 hmids stN hseq
      exact ⟨hfin, overlay_at_local _ _ x v hfin⟩
  · intro k w hgk hk1 hk2 hcfk
    have hcfk2 : cf k = some w := by
      unfold combinedFinalAt at hcfk
      rw [hcf] at hcfk
      simpa using hcfk
    exact runStep_writeback_at I1 st0 c1 cf k w hcf hgk hk1 hk2 hcfk2

/-- C3 (witness for the amended theorem): the submission `ans = 42` binds
`ans`; after an intervening submission `z = 2` that does not touch `ans`,
the session's locals still map `ans` to `42`. -/
theorem C3_persistence_amended_witness :
    localsAtO (runStep plainSession (assignAnsInterp, "ans = 42")) "ans"
      = some (some (.vstr "42")) ∧
    localsAtO (runSeqO (runStep plainSession (assignAnsInterp, "ans = 42"))
        [(assignZInterp, "z = 2")]) "ans" = some (some (.vstr "42")) := by
  have hmids : ∀ ic ∈ [((assignZInterp : Interp), ("z = 2" : String))],
      PreservesVar ic.1 "ans" := by
    intro ic hic
    rw [List.mem_singleton] at hic
    subst hic
    constructor
    · intro c ns
      simp [assignZInterp, nsSet]
    · intro c ns
      rfl
  have h := C3_persistence_amended "ans" (.vstr "42") plainSession assignAnsInterp
      "ans = 42" [(assignZInterp, "z = 2")] (by decide) (by decide) rfl rfl rfl hmids
  refine ⟨h.1, ?_⟩
  have hS : (runSeqO (runStep plainSession (assignAnsInterp, "ans = 42"))
      [(assignZInterp, "z = 2")]).isSome = true := rfl
  cases hrs : runSeqO (runStep plainSession (assignAnsInterp, "ans = 42"))
      [(assignZInterp, "z = 2")] with
  | none => rw [hrs] at hS; simp at hS
  | some stN =>
    have hfin := (h.2.1 stN hrs).1
    simp [localsAtO, hrs, hfin]
